import Mathlib

/-!
Shallow embedding of `tools/build_images.py`: a batch image pipeline that
fetches remote images, archives the original bytes, and produces resized
WebP derivatives (or a verbatim PNG copy).  Network, decoding and encoding
are modelled as oracles (an `Env`); filesystem writes are recorded as a
list of `FileWrite`s in the order the script performs them.  Python's
`round` on an exact half is round-half-to-even, modelled here over exact
integer arithmetic (`pyRound`).
-/

namespace BuildImages

/-- A byte payload, as a list of byte values (`bytes` in the source). -/
abbrev Bytes := List Nat

/-- `ImageJob` dataclass from the source: one download/transcode unit. -/
structure ImageJob where
  url : String
  out_dir : String
  base_name : String
  widths : List Nat
  format : String := "webp"
  quality : Nat := 78
deriving DecidableEq

/-- An in-memory PIL bitmap: dimensions, color mode, and band names
(`Image.getbands()`). -/
structure PILImage where
  width : Nat
  height : Nat
  mode : String
  bands : List String
deriving DecidableEq

/-- Python `round(num / den)` over exact integers: round half to even. -/
def pyRound (num den : Nat) : Nat :=
  let q := num / den
  let r := num % den
  if 2 * r < den then q
  else if den < 2 * r then q + 1
  else if q % 2 = 0 then q else q + 1

/-- `resize_to_width` from the source: skip when the width already matches,
otherwise scale the height as `max(1, round(height * (width / img.width)))`
and resize (Lanczos resampling; the arithmetic is modelled exactly). -/
def resize_to_width (img : PILImage) (width : Nat) : PILImage :=
  if img.width = width then img
  else { img with width := width
                  height := max 1 (pyRound (img.height * width) img.width) }

/-- Band list of the two PIL modes the script converts to. -/
def bandsOfMode (m : String) : List String :=
  if m = "RGBA" then ["R", "G", "B", "A"] else ["R", "G", "B"]

/-- `Image.convert(m)` for the modes used by the script: dimensions are
preserved, mode and bands change. -/
def convert (img : PILImage) (m : String) : PILImage :=
  { img with mode := m, bands := bandsOfMode m }

/-- The mode-normalisation step of the WebP pipeline:
`if im.mode not in ("RGB", "RGBA"): im = im.convert("RGBA" if "A" in im.getbands() else "RGB")`. -/
def normalizeMode (img : PILImage) : PILImage :=
  if img.mode = "RGB" ∨ img.mode = "RGBA" then img
  else convert img (if "A" ∈ img.bands then "RGBA" else "RGB")

/-- Python `str.split(sep)` for a one-character separator: always returns a
non-empty list of (possibly empty) chunks. -/
def splitOnChar (c : Char) : List Char → List (List Char)
  | [] => [[]]
  | a :: rest =>
    match splitOnChar c rest with
    | [] => [[]]
    | g :: gs => if a = c then [] :: g :: gs else (a :: g) :: gs

/-- `url.split("?")[0].split("#")[0]`: drop the query string and fragment. -/
def stripQF (s : List Char) : List Char :=
  (splitOnChar '#' ((splitOnChar '?' s).headD [])).headD []

/-- `url.split("?")[0].split("#")[0].split(".")[-1].lower()`, at the level
of character lists. -/
def extChars (s : List Char) : List Char :=
  ((splitOnChar '.' (stripQF s)).getLastD []).map Char.toLower

/-- The archive extension the script derives from a job's URL. -/
def original_ext (url : String) : String :=
  String.mk (extChars url.data)

/-- The characters of `s` strictly after the final occurrence of `c`
(all of `s` when `c` does not occur): the specification's reading of
"the substring after the final dot". -/
def suffixAfterLast (c : Char) : List Char → List Char
  | [] => []
  | a :: rest =>
    if c ∈ rest then suffixAfterLast c rest
    else if a = c then rest else a :: rest

/-- What a single filesystem write deposits: raw bytes, or a WebP encoding
of a bitmap at a given quality (method 6, optimized, no metadata). -/
inductive FileContent
  | raw (blob : Bytes)
  | webp (img : PILImage) (quality : Nat)
deriving DecidableEq

/-- One `write_bytes` / `img.save` call: target path and content. -/
structure FileWrite where
  path : String
  content : FileContent
deriving DecidableEq

/-- The archive path `out_dir / f"{base_name}.orig.{original_ext}"`. -/
def origPath (job : ImageJob) : String :=
  job.out_dir ++ "/" ++ job.base_name ++ ".orig." ++ original_ext job.url

/-- `save_original`: the write it performs and the path it returns. -/
def save_original (job : ImageJob) (blob : Bytes) : FileWrite × String :=
  (⟨origPath job, FileContent.raw blob⟩, origPath job)

/-- Overwriting filesystem semantics of one write applied to a previous
state: the new content shadows whatever was at that path. -/
def applyWrite (fs : String → Option FileContent) (w : FileWrite) :
    String → Option FileContent :=
  fun p => if p = w.path then some w.content else fs p

/-- Oracles for the effectful steps: `download_bytes` (fetch), `Image.open`
plus `load` (decode), and a possible failure of `img.save` (encode).  An
`Except.error` / `some` models the Python exception's message. -/
structure Env where
  fetch : String → Except String Bytes
  decode : Bytes → Except String PILImage
  encodeErr : PILImage → Nat → Option String

/-- Output path of the derivative for width `w`:
`out_dir / f"{base_name}-{w}.webp"`. -/
def derivPath (job : ImageJob) (w : Nat) : String :=
  job.out_dir ++ "/" ++ job.base_name ++ "-" ++ toString w ++ ".webp"

/-- The `for w in job.widths` loop of the WebP pipeline: each width resizes
the (shared, already normalised) bitmap and encodes it; an encode failure
raises, keeping the earlier widths' files. -/
def webpWrites (env : Env) (job : ImageJob) (im : PILImage) :
    List Nat → List FileWrite × Option String
  | [] => ([], none)
  | w :: ws =>
    let resized := resize_to_width im w
    match env.encodeErr resized job.quality with
    | some e => ([], some e)
    | none =>
      let r := webpWrites env job im ws
      (⟨derivPath job w, FileContent.webp resized job.quality⟩ :: r.1, r.2)

/-- Outcome of one job: the writes it performed (in order) and the raised
exception's message, if the pipeline raised. -/
structure JobResult where
  writes : List FileWrite
  err : Option String
deriving DecidableEq

/-- `process_job`: fetch, archive the original, then either the PNG
passthrough (verbatim copy to `<base_name>.png`) or the WebP pipeline
(decode, normalise mode, resize and encode each width). -/
def process_job (env : Env) (job : ImageJob) : JobResult :=
  match env.fetch job.url with
  | .error e => ⟨[], some e⟩
  | .ok blob =>
    let orig := (save_original job blob).1
    if job.format = "png" then
      ⟨[orig, ⟨job.out_dir ++ "/" ++ job.base_name ++ ".png",
               FileContent.raw blob⟩], none⟩
    else
      match env.decode blob with
      | .error e => ⟨[orig], some e⟩
      | .ok im0 =>
        let r := webpWrites env job (normalizeMode im0) job.widths
        ⟨orig :: r.1, r.2⟩

/-- The stderr line the job runner prints for a failed job:
`f"ERRO em {job.url}: {exc}"`. -/
def errLine (job : ImageJob) (e : String) : String :=
  "ERRO em " ++ job.url ++ ": " ++ e

/-- Aggregate state of the job loop: writes performed, stderr lines, and
the failure counter. -/
structure LoopResult where
  writes : List FileWrite
  errlog : List String
  failures : Nat
deriving DecidableEq

/-- The `for job in jobs: try ... except` loop of `main`: each failing job
adds one stderr line and bumps the counter; every job runs regardless of
earlier failures. -/
def runJobs (env : Env) : List ImageJob → LoopResult
  | [] => ⟨[], [], 0⟩
  | job :: rest =>
    let r := process_job env job
    let t := runJobs env rest
    match r.err with
    | some e => ⟨r.writes ++ t.writes, errLine job e :: t.errlog, t.failures + 1⟩
    | none => ⟨r.writes ++ t.writes, t.errlog, t.failures⟩

/-- Final process outcome: writes, stderr, failure count, exit status. -/
structure MainResult where
  writes : List FileWrite
  errlog : List String
  failures : Nat
  exitCode : Nat
deriving DecidableEq

/-- The tail of `main`: on any failure print the summary to stderr and
return 2, otherwise return 0. -/
def mainRun (env : Env) (jobs : List ImageJob) : MainResult :=
  let r := runJobs env jobs
  if r.failures = 0 then ⟨r.writes, r.errlog, r.failures, 0⟩
  else ⟨r.writes,
        r.errlog ++ ["Concluído com " ++ toString r.failures ++ " falha(s)."],
        r.failures, 2⟩

/-- `OUT_IMAGES = ROOT / "assets" / "images"`, relative to the project. -/
def OUT_IMAGES : String := "assets/images"

/-- `OUT_ICONS = ROOT / "assets" / "icons"`, relative to the project. -/
def OUT_ICONS : String := "assets/icons"

/-- First job of the static list (hero background). -/
def heroJob : ImageJob :=
  { url := "https://franquiadepilates.com.br/wp-content/uploads/2025/10/Imagem.webp"
    out_dir := OUT_IMAGES, base_name := "hero"
    widths := [640, 960, 1280, 1600, 1920], quality := 76 }

/-- The `logo-voll-grupo` job of the static list: note that the source does
not pass `format`, so the dataclass default `"webp"` applies. -/
def logoVollGrupoJob : ImageJob :=
  { url := "https://franquiadepilates.com.br/wp-content/uploads/2019/02/voll-pilates.png"
    out_dir := OUT_IMAGES, base_name := "logo-voll-grupo"
    widths := [200, 400], quality := 82 }

/-- The static job list built in `main`, in declaration order. -/
def jobs : List ImageJob :=
  [ heroJob,
    { url := "https://franquiadepilates.com.br/wp-content/uploads/2024/05/studio_voll_campinas_pilates_5.webp"
      out_dir := OUT_IMAGES, base_name := "target-left"
      widths := [480, 640, 800], quality := 78 },
    { url := "https://franquiadepilates.com.br/wp-content/uploads/2024/05/studio_voll_campinas_pilates_6.webp"
      out_dir := OUT_IMAGES, base_name := "security-bg"
      widths := [640, 960, 1200], quality := 76 },
    { url := "https://franquiadepilates.com.br/wp-content/uploads/2025/09/mapa.webp"
      out_dir := OUT_IMAGES, base_name := "mapa"
      widths := [640, 960, 1200], quality := 76 },
    { url := "https://franquiadepilates.com.br/wp-content/uploads/2025/10/VOLL-PILATES-Logotipo-Institucional-Branco-01.webp"
      out_dir := OUT_IMAGES, base_name := "logo-voll-branco"
      widths := [150, 300], quality := 82 },
    { url := "https://franquiadepilates.com.br/wp-content/uploads/2025/09/Associacao-Brasileira-de-Franchising-e1758288849748.webp"
      out_dir := OUT_IMAGES, base_name := "logo-abf"
      widths := [200, 400], quality := 82 },
    logoVollGrupoJob,
    { url := "https://franquiadepilates.com.br/wp-content/uploads/2025/09/maxresdefault.webp"
      out_dir := OUT_IMAGES, base_name := "testi-1"
      widths := [480, 768, 1024, 1200], quality := 76 },
    { url := "https://franquiadepilates.com.br/wp-content/uploads/2025/09/depoimento2.webp"
      out_dir := OUT_IMAGES, base_name := "testi-2"
      widths := [480, 768, 1024, 1200], quality := 76 },
    { url := "https://franquiadepilates.com.br/wp-content/uploads/2025/09/depoimento3.webp"
      out_dir := OUT_IMAGES, base_name := "testi-3"
      widths := [480, 768, 1024, 1200], quality := 76 },
    { url := "https://franquiadepilates.com.br/wp-content/uploads/2025/09/depoimento4.webp"
      out_dir := OUT_IMAGES, base_name := "testi-4"
      widths := [480, 768, 1024, 1200], quality := 76 },
    { url := "https://franquiadepilates.com.br/wp-content/uploads/2025/09/depoimento5.webp"
      out_dir := OUT_IMAGES, base_name := "testi-5"
      widths := [480, 768, 1024, 1200], quality := 76 },
    { url := "https://franquiadepilates.com.br/wp-content/uploads/2019/11/icons8-f%C3%A1cil-100.png"
      out_dir := OUT_ICONS, base_name := "investimento-facilitado"
      widths := [64, 128], quality := 80 },
    { url := "https://franquiadepilates.com.br/wp-content/uploads/2019/11/icons8-presente-100.png"
      out_dir := OUT_ICONS, base_name := "equipamentos"
      widths := [64, 128], quality := 80 },
    { url := "https://franquiadepilates.com.br/wp-content/uploads/2019/11/icons8-gr%C3%A1fico-100.png"
      out_dir := OUT_ICONS, base_name := "escalabilidade"
      widths := [64, 128], quality := 80 },
    { url := "https://franquiadepilates.com.br/wp-content/uploads/2019/11/icons8-professor-100.png"
      out_dir := OUT_ICONS, base_name := "formacao-tecnica"
      widths := [64, 128], quality := 80 },
    { url := "https://franquiadepilates.com.br/wp-content/uploads/2019/11/icons8-undefined-100.png"
      out_dir := OUT_ICONS, base_name := "direitos-marca"
      widths := [64, 128], quality := 80 },
    { url := "https://franquiadepilates.com.br/wp-content/uploads/2019/11/icons8-sacar-dinheiro-100.png"
      out_dir := OUT_ICONS, base_name := "fature-muito"
      widths := [64, 128], quality := 80 },
    { url := "https://franquiadepilates.com.br/wp-content/uploads/2019/11/icons8-restitui%C3%A7%C3%A3o-2-100.png"
      out_dir := OUT_ICONS, base_name := "payback"
      widths := [48, 96], quality := 80 },
    { url := "https://franquiadepilates.com.br/wp-content/uploads/2019/11/icons8-undefined-1001.png"
      out_dir := OUT_ICONS, base_name := "breakeven"
      widths := [48, 96], quality := 80 },
    { url := "https://franquiadepilates.com.br/wp-content/uploads/2019/11/icons8-comprar-moedas-100.png"
      out_dir := OUT_ICONS, base_name := "royalties"
      widths := [48, 96], quality := 80 } ]

/-- A sample byte payload for concrete runs. -/
def blobA : Bytes := [137, 80, 78, 71, 13, 10]

/-- A sample decoded bitmap, 400×400 RGB. -/
def imgSquare : PILImage := ⟨400, 400, "RGB", ["R", "G", "B"]⟩

/-- An environment in which every fetch, decode and encode succeeds. -/
def envOk : Env :=
  ⟨fun _ => .ok blobA, fun _ => .ok imgSquare, fun _ _ => none⟩

/-- An environment in which exactly the hero and mapa fetches fail with an
HTTP 404 and everything else succeeds. -/
def envTwoFail : Env :=
  ⟨fun u =>
      if u = heroJob.url ∨
         u = "https://franquiadepilates.com.br/wp-content/uploads/2025/09/mapa.webp"
      then .error "HTTP Error 404: Not Found" else .ok blobA,
    fun _ => .ok imgSquare, fun _ _ => none⟩

/-- A webp job whose widths tuple is empty (exercises the implicit
empty-widths behaviour; no such job is in the static list). -/
def jobNoWidths : ImageJob :=
  { url := "https://example.com/a.webp", out_dir := OUT_IMAGES
    base_name := "empty", widths := [] }

theorem splitOnChar_ne_nil (c : Char) (s : List Char) : splitOnChar c s ≠ [] := by
  cases s with
  | nil => simp [splitOnChar]
  | cons a rest =>
    simp only [splitOnChar]
    cases h : splitOnChar c rest with
    | nil => simp
    | cons g gs =>
      by_cases hac : a = c <;> simp [hac]

theorem splitOnChar_of_not_mem (c : Char) (s : List Char) (h : c ∉ s) :
    splitOnChar c s = [s] := by
  induction s with
  | nil => rfl
  | cons a rest ih =>
    have hac : a ≠ c := fun hh => h (hh ▸ List.mem_cons_self a rest)
    have hrest : c ∉ rest := fun hh => h (List.mem_cons_of_mem a hh)
    simp only [splitOnChar, ih hrest]
    simp [hac]

theorem splitOnChar_of_mem (c : Char) (s : List Char) (h : c ∈ s) :
    ∃ g gs, splitOnChar c s = g :: gs ∧ gs ≠ [] := by
  induction s with
  | nil => simp at h
  | cons a rest ih =>
    by_cases hac : a = c
    · simp only [splitOnChar]
      cases hr : splitOnChar c rest with
      | nil => exact absurd hr (splitOnChar_ne_nil c rest)
      | cons g gs => exact ⟨[], g :: gs, by simp [hac], by simp⟩
    · have hrest : c ∈ rest := by
        rcases List.mem_cons.mp h with h1 | h1
        · exact absurd h1.symm hac
        · exact h1
      rcases ih hrest with ⟨g, gs, hgs, hne⟩
      exact ⟨a :: g, gs, by simp [splitOnChar, hgs, hac], hne⟩

theorem getLastD_splitOnChar (c : Char) (s : List Char) :
    (splitOnChar c s).getLastD [] = suffixAfterLast c s := by
  induction s with
  | nil => rfl
  | cons a rest ih =>
    by_cases hm : c ∈ rest
    · rcases splitOnChar_of_mem c rest hm with ⟨g, gs, hgs, hne⟩
      by_cases hac : a = c
      · simp only [splitOnChar, hgs, if_pos hac, suffixAfterLast, if_pos hm]
        rw [← hgs, ← ih, hgs]
        cases gs with
        | nil => exact absurd rfl hne
        | cons x xs => simp [List.getLastD_cons]
      · simp only [splitOnChar, hgs, if_neg hac, suffixAfterLast, if_pos hm]
        rw [← ih, hgs]
        cases gs with
        | nil => exact absurd rfl hne
        | cons x xs => simp [List.getLastD_cons]
    · have hsplit := splitOnChar_of_not_mem c rest hm
      by_cases hac : a = c
      · simp [splitOnChar, hsplit, hac, suffixAfterLast, hm]
      · simp [splitOnChar, hsplit, hac, suffixAfterLast, hm]

theorem convert_width (img : PILImage) (m : String) :
    (convert img m).width = img.width := rfl

theorem normalizeMode_width (img : PILImage) :
    (normalizeMode img).width = img.width := by
  unfold normalizeMode
  split <;> rfl

theorem normalizeMode_height (img : PILImage) :
    (normalizeMode img).height = img.height := by
  unfold normalizeMode
  split <;> rfl

theorem webpWrites_allOk (env : Env) (job : ImageJob) (im : PILImage)
    (henc : ∀ i q, env.encodeErr i q = none) (ws : List Nat) :
    webpWrites env job im ws =
      (ws.map (fun w =>
        (⟨derivPath job w, FileContent.webp (resize_to_width im w) job.quality⟩ :
          FileWrite)), none) := by
  induction ws with
  | nil => rfl
  | cons w rest ih =>
    simp only [webpWrites, henc, ih, List.map_cons]

theorem runJobs_append (env : Env) (l1 l2 : List ImageJob) :
    runJobs env (l1 ++ l2) =
      ⟨(runJobs env l1).writes ++ (runJobs env l2).writes,
       (runJobs env l1).errlog ++ (runJobs env l2).errlog,
       (runJobs env l1).failures + (runJobs env l2).failures⟩ := by
  induction l1 with
  | nil => simp [runJobs]
  | cons j t ih =>
    cases hj : (process_job env j).err with
    | none => simp [runJobs, hj, ih]
    | some e =>
      simp [runJobs, hj, ih]
      omega

/-- C1: any exception raised in a job's pipeline is caught exactly once at
the job-runner loop, logged to the error stream with the job's URL and the
exception message, increments the failure counter by exactly 1, and does
not prevent any subsequent job from being processed. -/
theorem C1_job_failure_isolated (env : Env) (pre post : List ImageJob)
    (job : ImageJob) (e : String)
    (h : (process_job env job).err = some e) :
    (runJobs env (pre ++ job :: post)).failures
        = (runJobs env pre).failures + 1 + (runJobs env post).failures ∧
    (runJobs env (pre ++ job :: post)).errlog
        = (runJobs env pre).errlog ++
            ("ERRO em " ++ job.url ++ ": " ++ e) :: (runJobs env post).errlog ∧
    (runJobs env (pre ++ job :: post)).writes
        = (runJobs env pre).writes ++ (process_job env job).writes
            ++ (runJobs env post).writes := by
  have hcons : runJobs env (job :: post) =
      ⟨(process_job env job).writes ++ (runJobs env post).writes,
       ("ERRO em " ++ job.url ++ ": " ++ e) :: (runJobs env post).errlog,
       (runJobs env post).failures + 1⟩ := by
    simp [runJobs, h, errLine]
  rw [runJobs_append env pre (job :: post), hcons]
  refine ⟨by simp; omega, by simp, by simp⟩

/-- C1 witness: a concrete failing hero job between two succeeding jobs. -/
theorem C1_witness :
    (runJobs envTwoFail ([logoVollGrupoJob] ++ heroJob :: [jobNoWidths])).failures
        = (runJobs envTwoFail [logoVollGrupoJob]).failures + 1 +
            (runJobs envTwoFail [jobNoWidths]).failures ∧
    (runJobs envTwoFail ([logoVollGrupoJob] ++ heroJob :: [jobNoWidths])).errlog
        = (runJobs envTwoFail [logoVollGrupoJob]).errlog ++
            ("ERRO em " ++ heroJob.url ++ ": " ++ "HTTP Error 404: Not Found") ::
            (runJobs envTwoFail [jobNoWidths]).errlog ∧
    (runJobs envTwoFail ([logoVollGrupoJob] ++ heroJob :: [jobNoWidths])).writes
        = (runJobs envTwoFail [logoVollGrupoJob]).writes ++
            (process_job envTwoFail heroJob).writes ++
            (runJobs envTwoFail [jobNoWidths]).writes :=
  C1_job_failure_isolated envTwoFail [logoVollGrupoJob] [jobNoWidths] heroJob
    "HTTP Error 404: Not Found" (by decide)

/-- C3: the archiver writes the fetched bytes verbatim to
`<out_dir>/<base_name>.orig.<ext>` (with `<ext>` derived from the URL,
query string and fragment stripped, lower-cased), overwriting any existing
file at that path, and returns that path. -/
theorem C3_archive_verbatim (job : ImageJob) (blob : Bytes)
    (fs : String → Option FileContent) :
    (save_original job blob).2 = origPath job ∧
    (save_original job blob).1 = ⟨origPath job, FileContent.raw blob⟩ ∧
    origPath job = job.out_dir ++ "/" ++ job.base_name ++ ".orig."
        ++ original_ext job.url ∧
    applyWrite fs (save_original job blob).1 (origPath job)
        = some (FileContent.raw blob) := by
  refine ⟨rfl, rfl, rfl, ?_⟩
  simp [applyWrite, save_original]

/-- C4: over the static job list the exit status is 0 when the failure
counter is zero and 2 otherwise, and in the failure case a summary line
reporting the exact failure count is emitted to the error stream. -/
theorem C4_exit_code (env : Env) (n : Nat)
    (h : (runJobs env jobs).failures = n) :
    (mainRun env jobs).exitCode = (if n = 0 then 0 else 2) ∧
    (mainRun env jobs).failures = n ∧
    (mainRun env jobs).errlog
      = (runJobs env jobs).errlog ++
          (if n = 0 then []
           else ["Concluído com " ++ toString n ++ " falha(s)."]) := by
  subst h
  unfold mainRun
  by_cases h0 : (runJobs env jobs).failures = 0 <;> simp [h0]

/-- C4 witness: a run of the static list in which exactly the hero and
mapa fetches fail: the count is 2, the summary reports 2, and the exit
status is 2. -/
theorem C4_witness :
    (mainRun envTwoFail jobs).exitCode = (if 2 = 0 then 0 else 2) ∧
    (mainRun envTwoFail jobs).failures = 2 ∧
    (mainRun envTwoFail jobs).errlog
      = (runJobs envTwoFail jobs).errlog ++
          (if 2 = 0 then ([] : List String)
           else ["Concluído com " ++ toString 2 ++ " falha(s)."]) :=
  C4_exit_code envTwoFail 2 (by decide)

/-- C6: after a successful fetch the archiver's write is the very first
write of the job — it happens before any decoding or transcoding, in every
branch (PNG passthrough, decode failure, WebP pipeline), so a later
transcoding failure never loses the archived original. -/
theorem C6_original_archived_first (env : Env) (job : ImageJob) (blob : Bytes)
    (hfetch : env.fetch job.url = .ok blob) :
    (process_job env job).writes.head?
      = some ⟨origPath job, FileContent.raw blob⟩ := by
  unfold process_job
  rw [hfetch]
  by_cases hfmt : job.format = "png"
  · simp [hfmt, save_original]
  · cases hdec : env.decode blob with
    | error e => simp [hfmt, hdec, save_original]
    | ok im0 => simp [hfmt, hdec, save_original]

/-- C6 witness: the hero job in the all-succeeding environment. -/
theorem C6_witness :
    (process_job envOk heroJob).writes.head?
      = some ⟨origPath heroJob, FileContent.raw blobA⟩ :=
  C6_original_archived_first envOk heroJob blobA rfl

/-- C7: when the requested width equals the bitmap's current width, the
resize step returns the identical bitmap with no resampling applied. -/
theorem C7_resize_noop (img : PILImage) (w : Nat) (h : img.width = w) :
    resize_to_width img w = img := by
  simp [resize_to_width, h]

/-- C7 witness: resizing a 400-wide bitmap to width 400 is the identity. -/
theorem C7_witness : resize_to_width imgSquare 400 = imgSquare :=
  C7_resize_noop imgSquare 400 rfl

/-- C8: bitmaps already in RGB or RGBA are left unconverted; any other
mode is converted to RGBA when the band set contains the alpha band "A"
and to RGB otherwise. -/
theorem C8_mode_normalization (img : PILImage) :
    (img.mode = "RGB" ∨ img.mode = "RGBA" → normalizeMode img = img) ∧
    (img.mode ≠ "RGB" → img.mode ≠ "RGBA" → "A" ∈ img.bands →
        normalizeMode img = convert img "RGBA") ∧
    (img.mode ≠ "RGB" → img.mode ≠ "RGBA" → "A" ∉ img.bands →
        normalizeMode img = convert img "RGB") := by
  refine ⟨fun h => by simp [normalizeMode, h],
          fun h1 h2 hA => ?_, fun h1 h2 hA => ?_⟩
  · simp [normalizeMode, h1, h2, hA]
  · simp [normalizeMode, h1, h2, hA]

/-- C8 witness: a palette-mode bitmap without an alpha band converts
to RGB. -/
theorem C8_witness :
    normalizeMode ⟨8, 8, "P", ["P"]⟩ = convert ⟨8, 8, "P", ["P"]⟩ "RGB" :=
  (C8_mode_normalization ⟨8, 8, "P", ["P"]⟩).2.2 (by decide) (by decide)
    (by decide)

/-- C9: a webp job with an empty widths tuple is not rejected: with a
successful fetch and decode the job completes without error, writes the
archived original, and produces zero derivative files. -/
theorem C9_empty_widths_ok (env : Env) (job : ImageJob) (blob : Bytes)
    (im0 : PILImage) (hfmt : job.format = "webp") (hw : job.widths = [])
    (hfetch : env.fetch job.url = .ok blob)
    (hdec : env.decode blob = .ok im0) :
    (process_job env job).err = none ∧
    (process_job env job).writes = [⟨origPath job, FileContent.raw blob⟩] := by
  have hpng : job.format ≠ "png" := by rw [hfmt]; decide
  constructor
  · simp [process_job, hfetch, hpng, hdec, hw, webpWrites]
  · simp [process_job, hfetch, hpng, hdec, hw, webpWrites, save_original]

/-- C9 witness: a concrete empty-widths webp job in the all-succeeding
environment. -/
theorem C9_witness :
    (process_job envOk jobNoWidths).err = none ∧
    (process_job envOk jobNoWidths).writes
      = [⟨origPath jobNoWidths, FileContent.raw blobA⟩] :=
  C9_empty_widths_ok envOk jobNoWidths blobA imgSquare rfl rfl rfl rfl

/-- C2: for a webp job and a requested width `w` in its widths, when the
decoded bitmap's width `W` differs from `w` the produced derivative has
width exactly `w` and height `max 1 (round(H * w / W))` (round half to
even, as Python's `round`; arithmetic modelled exactly), and that
derivative is written to `<base_name>-<w>.webp`. -/
theorem C2_derivative_dimensions (env : Env) (job : ImageJob) (blob : Bytes)
    (im0 : PILImage) (w : Nat)
    (hfmt : job.format = "webp")
    (hfetch : env.fetch job.url = .ok blob)
    (hdec : env.decode blob = .ok im0)
    (henc : ∀ i q, env.encodeErr i q = none)
    (hw : w ∈ job.widths)
    (hW : im0.width ≠ w) (_hpos : 0 < im0.width) :
    (⟨derivPath job w,
       FileContent.webp (resize_to_width (normalizeMode im0) w) job.quality⟩ :
      FileWrite) ∈ (process_job env job).writes ∧
    (resize_to_width (normalizeMode im0) w).width = w ∧
    (resize_to_width (normalizeMode im0) w).height
      = max 1 (pyRound (im0.height * w) im0.width) := by
  have hpng : job.format ≠ "png" := by rw [hfmt]; decide
  have hres : resize_to_width (normalizeMode im0) w =
      { normalizeMode im0 with
          width := w
          height := max 1 (pyRound ((normalizeMode im0).height * w)
            ((normalizeMode im0).width)) } := by
    rw [resize_to_width, if_neg]
    rw [normalizeMode_width]
    exact hW
  refine ⟨?_, ?_, ?_⟩
  · have hpj : (process_job env job).writes =
        (⟨origPath job, FileContent.raw blob⟩ : FileWrite) ::
          job.widths.map (fun v =>
            (⟨derivPath job v,
              FileContent.webp (resize_to_width (normalizeMode im0) v)
                job.quality⟩ : FileWrite)) := by
      simp [process_job, hfetch, hpng, hdec,
            webpWrites_allOk env job _ henc, save_original]
    rw [hpj]
    exact List.mem_cons_of_mem _ (List.mem_map_of_mem _ hw)
  · rw [hres]
  · rw [hres]
    simp [normalizeMode_width, normalizeMode_height]

/-- C2 witness: the hero job, a 400×400 decoded bitmap, requested width
640: the derivative is 640 wide and 640 high. -/
theorem C2_witness :
    (⟨derivPath heroJob 640,
       FileContent.webp (resize_to_width (normalizeMode imgSquare) 640)
         heroJob.quality⟩ : FileWrite)
      ∈ (process_job envOk heroJob).writes ∧
    (resize_to_width (normalizeMode imgSquare) 640).width = 640 ∧
    (resize_to_width (normalizeMode imgSquare) 640).height
      = max 1 (pyRound (imgSquare.height * 640) imgSquare.width) :=
  C2_derivative_dimensions envOk heroJob blobA imgSquare 640 rfl rfl rfl
    (fun _ _ => rfl) (by decide) (by decide) (by decide)

/-- C5 counterexample: the static list's `logo-voll-grupo` job does not
set `format`, so the dataclass default `"webp"` applies: in a concrete
all-succeeding run it writes three files, none named
`logo-voll-grupo.png`, contradicting the claimed two-file PNG
passthrough. -/
theorem C5_counterexample :
    logoVollGrupoJob.format ≠ "png" ∧
    (process_job envOk logoVollGrupoJob).writes.map FileWrite.path
      = ["assets/images/logo-voll-grupo.orig.png",
         "assets/images/logo-voll-grupo-200.webp",
         "assets/images/logo-voll-grupo-400.webp"] ∧
    "assets/images/logo-voll-grupo.png" ∉
      (process_job envOk logoVollGrupoJob).writes.map FileWrite.path := by
  decide

/-- C5 (amended): the `logo-voll-grupo` job has the default webp format,
so it archives `logo-voll-grupo.orig.png` with the fetched bytes verbatim
and produces the derivatives `logo-voll-grupo-200.webp` and
`logo-voll-grupo-400.webp` at quality 82. -/
theorem C5_logo_job_outputs (env : Env) (blob : Bytes) (im0 : PILImage)
    (hfetch : env.fetch logoVollGrupoJob.url = .ok blob)
    (hdec : env.decode blob = .ok im0)
    (henc : ∀ i q, env.encodeErr i q = none) :
    (process_job env logoVollGrupoJob).err = none ∧
    (process_job env logoVollGrupoJob).writes
      = [⟨"assets/images/logo-voll-grupo.orig.png", FileContent.raw blob⟩,
         ⟨"assets/images/logo-voll-grupo-200.webp",
          FileContent.webp (resize_to_width (normalizeMode im0) 200) 82⟩,
         ⟨"assets/images/logo-voll-grupo-400.webp",
          FileContent.webp (resize_to_width (normalizeMode im0) 400) 82⟩] := by
  have hpng : logoVollGrupoJob.format ≠ "png" := by decide
  have h1 : origPath logoVollGrupoJob
      = "assets/images/logo-voll-grupo.orig.png" := by decide
  have h2 : derivPath logoVollGrupoJob 200
      = "assets/images/logo-voll-grupo-200.webp" := by decide
  have h3 : derivPath logoVollGrupoJob 400
      = "assets/images/logo-voll-grupo-400.webp" := by decide
  have h4 : logoVollGrupoJob.widths = [200, 400] := by decide
  have h5 : logoVollGrupoJob.quality = 82 := by decide
  constructor
  · simp [process_job, hfetch, hpng, hdec, webpWrites_allOk _ _ _ henc]
  · simp [process_job, hfetch, hpng, hdec, webpWrites_allOk _ _ _ henc,
          save_original, h1, h2, h3, h4, h5]

/-- C5 witness: the amended behaviour at a concrete all-succeeding run. -/
theorem C5_witness :
    (process_job envOk logoVollGrupoJob).err = none ∧
    (process_job envOk logoVollGrupoJob).writes
      = [⟨"assets/images/logo-voll-grupo.orig.png", FileContent.raw blobA⟩,
         ⟨"assets/images/logo-voll-grupo-200.webp",
          FileContent.webp (resize_to_width (normalizeMode imgSquare) 200) 82⟩,
         ⟨"assets/images/logo-voll-grupo-400.webp",
          FileContent.webp (resize_to_width (normalizeMode imgSquare) 400) 82⟩] :=
  C5_logo_job_outputs envOk blobA imgSquare rfl rfl (fun _ _ => rfl)

/-- C10: the archive extension is the lower-cased run of characters after
the final dot anywhere in the query- and fragment-stripped URL; when a
slash occurs after that final dot, the "extension" contains a slash (and
the archive path then escapes the destination directory's immediate
children). -/
theorem C10_extension_after_last_dot (url : List Char) :
    extChars url = (suffixAfterLast '.' (stripQF url)).map Char.toLower ∧
    ('/' ∈ suffixAfterLast '.' (stripQF url) → '/' ∈ extChars url) := by
  constructor
  · unfold extChars
    rw [getLastD_splitOnChar]
  · intro h
    unfold extChars
    rw [getLastD_splitOnChar]
    exact List.mem_map.mpr ⟨'/', h, rfl⟩

/-- C10 witness: a URL whose last dot lies in the host name yields an
extension containing a slash. -/
theorem C10_witness :
    '/' ∈ extChars ("https://cdn.example.com/assets/img".data) :=
  (C10_extension_after_last_dot ("https://cdn.example.com/assets/img".data)).2
    (by decide)

end BuildImages
